import Mathlib

/-!
Verification of the message search/filter/pagination engine of the
TelegramGroupChatAnalysis frontend.  The definitions below are shallow
embeddings of the JavaScript in `src/frontend/src`: the Messages search page
and the UserDetail page (`pages/UserDetail.jsx`), the Search page
(`pages/Search.jsx`), the result-list component (`components/MessageList.jsx`),
the message card (`components/Loading.jsx`, third document: `MessageCard`),
and the text helpers (`utils/helpers.js`).  JS strings are modelled as `String`
where only equality and emptiness matter and as `List Char` where indexing,
length and character-wise transformation matter; JS numbers on these code
paths are non-negative integers and are modelled as `Nat`.
-/

namespace TGCA

/-- A message row as consumed by the result-list component
(`MessageList.jsx`); the grouping logic reads only the ISO-8601 `date`
string, `id` keeps rows distinguishable. -/
structure Message where
  id : Nat
  date : String
  text : String
deriving DecidableEq

/-- `message.date.split('T')[0]` (MessageList.jsx line 33): the date portion
of the ISO timestamp, i.e. the prefix of the string before the first `T`. -/
def dateKey (m : Message) : String := ⟨m.date.data.takeWhile (fun c => c ≠ 'T')⟩

/-- Digit value of a `YYYY-MM-DD` date key.  The comparator
`(a, b) => new Date(b) - new Date(a)` of MessageList.jsx line 137 orders
well-formed calendar-date keys exactly by this value (e.g. `2023-06-01`
evaluates to `20230601`). -/
def dateVal (s : String) : Nat :=
  s.data.foldl (fun acc c => if c.isDigit then acc * 10 + (c.toNat - 48) else acc) 0

/-- One step of the `reduce` in MessageList.jsx lines 32-39: push the message
into the bucket of its date key; when the key is new, the bucket is created
after the existing ones (JS object insertion order). -/
def addMsg : List (String × List Message) → Message → List (String × List Message)
  | [], m => [(dateKey m, [m])]
  | (k, ms) :: rest, m =>
    if k = dateKey m then (k, ms ++ [m]) :: rest else (k, ms) :: addMsg rest m

/-- The grouping effect of MessageList.jsx lines 29-42: fold every message
into its date bucket. -/
def groupMessages (msgs : List Message) : List (String × List Message) :=
  msgs.foldl addMsg []

/-- `groups[date]`: the bucket of a date key (empty when absent). -/
def bucketOf : List (String × List Message) → String → List Message
  | [], _ => []
  | (k, ms) :: rest, d => if k = d then ms else bucketOf rest d

/-- `Object.keys(groupedMessages)` in insertion order. -/
def keysOf (gs : List (String × List Message)) : List String := gs.map Prod.fst

/-- Insert a date key into a list kept descending by `dateVal`. -/
def insertDateDesc (d : String) : List String → List String
  | [] => [d]
  | x :: xs => if dateVal x ≤ dateVal d then d :: x :: xs else x :: insertDateDesc d xs

/-- Sorting of the bucket keys, modelling
`Object.keys(groupedMessages).sort((a, b) => new Date(b) - new Date(a))`
(MessageList.jsx line 137): a sort of the keys descending by date value. -/
def sortDatesDesc : List String → List String
  | [] => []
  | x :: xs => insertDateDesc x (sortDatesDesc xs)

/-- `sortedDates` of MessageList.jsx line 137. -/
def sortedDates (msgs : List Message) : List String :=
  sortDatesDesc (keysOf (groupMessages msgs))

/-- `PAGE_SIZE = 20` (UserDetail.jsx line 367, Search.jsx line 19). -/
def PAGE_SIZE : Nat := 20

/-- `Math.ceil(totalResults / PAGE_SIZE)` (UserDetail.jsx line 471,
Search.jsx line 95), on natural totals. -/
def totalPages (total : Nat) : Nat := (total + PAGE_SIZE - 1) / PAGE_SIZE

/-- `startResult = (page - 1) * PAGE_SIZE + 1` (UserDetail.jsx line 472). -/
def startResult (page : Nat) : Nat := (page - 1) * PAGE_SIZE + 1

/-- `endResult = Math.min(page * PAGE_SIZE, totalResults)`
(UserDetail.jsx line 473). -/
def endResult (page total : Nat) : Nat := min (page * PAGE_SIZE) total

/-- The query state of the Messages search page (UserDetail.jsx second
document, lines 355-365): one field per `useState` hook. -/
structure MsgQuery where
  page : Nat
  searchQuery : String
  userId : String
  dateFrom : String
  dateTo : String
  sortField : String
  sortOrder : String
  hasMedia : Bool
  isForwarded : Bool
  hasReply : Bool
deriving DecidableEq

/-- The default query: the `useState` initial values when every URL
parameter is absent. -/
def defaultMsgQuery : MsgQuery :=
  { page := 1, searchQuery := "", userId := "", dateFrom := "", dateTo := "",
    sortField := "date", sortOrder := "desc",
    hasMedia := false, isForwarded := false, hasReply := false }

/-- The request object built by the fetch effect (UserDetail.jsx lines
376-390): optional filters are present only when truthy. -/
structure FetchParams where
  page : Nat
  page_size : Nat
  sort_by : String
  sort_order : String
  search_text : Option String
  user_id : Option String
  date_from : Option String
  date_to : Option String
  has_media : Option Bool
  is_forwarded : Option Bool
  has_reply : Option Bool
deriving DecidableEq

/-- UserDetail.jsx lines 376-390: build the fetch parameters from the
current query state. -/
def fetchParamsOf (s : MsgQuery) : FetchParams :=
  { page := s.page, page_size := PAGE_SIZE,
    sort_by := s.sortField, sort_order := s.sortOrder,
    search_text := if s.searchQuery = "" then none else some s.searchQuery,
    user_id := if s.userId = "" then none else some s.userId,
    date_from := if s.dateFrom = "" then none else some s.dateFrom,
    date_to := if s.dateTo = "" then none else some s.dateTo,
    has_media := if s.hasMedia then some true else none,
    is_forwarded := if s.isForwarded then some true else none,
    has_reply := if s.hasReply then some true else none }

/-- `setSearchQuery` from the search input `onChange` (UserDetail.jsx line
492): changes only the text; the fetch effect then re-fires because
`searchQuery` is among its dependencies (line 421). -/
def setSearchQueryEv (s : MsgQuery) (t : String) : MsgQuery := { s with searchQuery := t }

/-- `setHasMedia` from the checkbox `onChange` (UserDetail.jsx line 579):
changes only the flag; the fetch effect then re-fires (dependency line 427). -/
def setHasMediaEv (s : MsgQuery) (b : Bool) : MsgQuery := { s with hasMedia := b }

/-- `handleSearch` (UserDetail.jsx lines 433-436): form submission resets
the page to 1. -/
def handleSearchEv (s : MsgQuery) : MsgQuery := { s with page := 1 }

/-- `toggleSort` (UserDetail.jsx lines 451-459). -/
def toggleSortEv (s : MsgQuery) (field : String) : MsgQuery :=
  if s.sortField = field then
    { s with sortOrder := if s.sortOrder = "asc" then "desc" else "asc", page := 1 }
  else
    { s with sortField := field, sortOrder := "desc", page := 1 }

/-- `setPage` from the pagination buttons (UserDetail.jsx lines 689-763). -/
def setPageEv (s : MsgQuery) (p : Nat) : MsgQuery := { s with page := p }

/-- The URL-parameter write of the fetch effect (UserDetail.jsx lines
406-416): every non-default field is written under its reserved key, in
source order; default-valued fields are omitted. -/
def encodeParams (s : MsgQuery) : List (String × String) :=
  (if s.searchQuery ≠ "" then [("q", s.searchQuery)] else []) ++
  (if s.userId ≠ "" then [("user", s.userId)] else []) ++
  (if s.dateFrom ≠ "" then [("from", s.dateFrom)] else []) ++
  (if s.dateTo ≠ "" then [("to", s.dateTo)] else []) ++
  (if s.sortField ≠ "date" then [("sort", s.sortField)] else []) ++
  (if s.sortOrder ≠ "desc" then [("order", s.sortOrder)] else []) ++
  (if s.hasMedia then [("has_media", "true")] else []) ++
  (if s.isForwarded then [("is_forwarded", "true")] else []) ++
  (if s.hasReply then [("has_reply", "true")] else []) ++
  (if 1 < s.page then [("page", toString s.page)] else [])

/-- `searchParams.get(k)` over a flat key/value list: first value under the
key, if any. -/
def getParam (l : List (String × String)) (k : String) : Option String :=
  (l.find? (fun p => p.1 == k)).map Prod.snd

/-- The state initialisation of the Messages page (UserDetail.jsx lines
355-365): each field reads its URL parameter with the JS `||` / `=== 'true'`
defaulting; `page` is initialised to the constant 1 (line 355) — no URL
parameter is read for it. -/
def decodeState (g : String → Option String) : MsgQuery :=
  { page := 1,
    searchQuery := (g "q").getD "",
    userId := (g "user").getD "",
    dateFrom := (g "from").getD "",
    dateTo := (g "to").getD "",
    sortField := (g "sort").getD "date",
    sortOrder := (g "order").getD "desc",
    hasMedia := if g "has_media" = some "true" then true else false,
    isForwarded := if g "is_forwarded" = some "true" then true else false,
    hasReply := if g "has_reply" = some "true" then true else false }

/-- Encode to the shareable representation and decode back. -/
def roundTrip (s : MsgQuery) : MsgQuery := decodeState (getParam (encodeParams s))

/-- The raw body returned by the remote search endpoint: both fields may be
absent (`result.messages || []`, `result.total || 0` handle this,
UserDetail.jsx lines 393-394, Search.jsx lines 61-62). -/
structure RawResult where
  messages : Option (List Message)
  total : Option Nat
deriving DecidableEq

/-- `result.messages || []`. -/
def rawMessages (r : RawResult) : List Message := r.messages.getD []

/-- `result.total || 0`. -/
def rawTotal (r : RawResult) : Nat := r.total.getD 0

/-- The fetch-relevant state of the Messages page: the current query, the
loading/error flags, the displayed result, and the requests currently in
flight (each remembers the parameters captured by its closure at issue
time). -/
structure MsgsFetchState where
  query : MsgQuery
  loading : Bool
  error : Option String
  messages : List Message
  totalResults : Nat
  pending : List FetchParams
deriving DecidableEq

/-- Initial state of the Messages page before any fetch. -/
def initialMsgsFetchState : MsgsFetchState :=
  { query := defaultMsgQuery, loading := false, error := none,
    messages := [], totalResults := 0, pending := [] }

/-- A query change on the Messages page: the state field changes and the
fetch effect re-runs (UserDetail.jsx lines 370-403): `setLoading(true)`,
`setError(null)`, and a new request is issued with the parameters of the
query that is current now. -/
def changeQueryEv (s : MsgsFetchState) (q : MsgQuery) : MsgsFetchState :=
  { s with
    query := q
    loading := true
    error := none
    pending := s.pending ++ [fetchParamsOf q] }

/-- Successful resolution of the in-flight request at index `i`
(UserDetail.jsx lines 392-395): the result is applied unconditionally —
`setMessages(result.messages || [])`, `setTotalResults(result.total || 0)`,
`setLoading(false)` — with no comparison of the request's originating query
against the current one. -/
def resolveEv (server : FetchParams → RawResult) (s : MsgsFetchState) (i : Nat) :
    MsgsFetchState :=
  match s.pending.get? i with
  | some p =>
    { s with
      messages := rawMessages (server p)
      totalResults := rawTotal (server p)
      loading := false
      pending := s.pending.eraseIdx i }
  | none => s

/-- Failed resolution of the in-flight request at index `i` (UserDetail.jsx
lines 396-400): `setError('Failed to search messages. Please try again.')`,
`setLoading(false)`; the `messages` state is left as it was. -/
def rejectEv (s : MsgsFetchState) (i : Nat) : MsgsFetchState :=
  match s.pending.get? i with
  | some _ =>
    { s with
      error := some "Failed to search messages. Please try again."
      loading := false
      pending := s.pending.eraseIdx i }
  | none => s

/-- What the Messages page puts on screen for the result area. -/
inductive MsgsRender where
  | loadingView : MsgsRender
  | errorView : String → MsgsRender
  | listView : List Message → MsgsRender
deriving DecidableEq

/-- The result-area branch of the Messages page (UserDetail.jsx lines
664-682): loading wins, then the error view, then the message list. -/
def renderMsgs (s : MsgsFetchState) : MsgsRender :=
  if s.loading then .loadingView
  else
    match s.error with
    | some e => .errorView e
    | none => .listView s.messages

/-- The fetch-relevant state of the Search page (Search.jsx lines 9-18):
note that no error state exists on this page. -/
structure SearchPageState where
  results : List Message
  totalResults : Nat
  loading : Bool
deriving DecidableEq

/-- Initial Search-page state. -/
def initialSearchPageState : SearchPageState :=
  { results := [], totalResults := 0, loading := false }

/-- `performSearch` succeeding (Search.jsx lines 48-62, 65-67):
`setResults(results.messages || [])`, `setTotalResults(results.total || 0)`,
then `setLoading(false)` in the `finally` block. -/
def searchSuccessEv (s : SearchPageState) (r : RawResult) : SearchPageState :=
  { s with results := rawMessages r, totalResults := rawTotal r, loading := false }

/-- `performSearch` failing (Search.jsx lines 63-67): the `catch` block only
logs to the console; the `finally` block clears the loading flag.  No state
records the failure and the previous results are kept. -/
def searchFailureEv (s : SearchPageState) : SearchPageState :=
  { s with loading := false }

/-- What the Search page puts on screen for the result area. -/
inductive SearchRender where
  | loadingView : SearchRender
  | noResultsView : SearchRender
  | resultsView : List Message → SearchRender
deriving DecidableEq

/-- The result-area branch of the Search page (Search.jsx lines 199-222):
spinner while loading, a "No results found" note for an empty list, else the
result rows.  There is no error branch. -/
def renderSearch (s : SearchPageState) : SearchRender :=
  if s.loading then .loadingView
  else if s.results = [] then .noResultsView
  else .resultsView s.results

/-- What the result-list component puts on screen. -/
inductive MLRender where
  | loadingView : MLRender
  | errorView : String → MLRender
  | emptyView : MLRender
  | listView : List (String × List Message) → List String → MLRender
deriving DecidableEq

/-- The render branches of MessageList.jsx (lines 86-134, 246-267): loading,
then the error box, then the "No messages found" empty state, then the
day-grouped list with its sorted date keys. -/
def renderMessageList (loading : Bool) (error : Option String) (msgs : List Message) :
    MLRender :=
  if loading then .loadingView
  else
    match error with
    | some e => .errorView e
    | none =>
      if msgs = [] then .emptyView
      else .listView (groupMessages msgs) (sortedDates msgs)

/-- An element of a message-text array, in the shapes the array branch of
`extractText` (helpers.js lines 64-72) distinguishes: a string fragment, an
object fragment with an optional string `text` property, or anything else
(null, a nested array, an object of another shape) — the code turns the
last kind into the empty string. -/
inductive MsgItem where
  | istr : List Char → MsgItem
  | iobj : Option (List Char) → MsgItem
  | iother : MsgItem
deriving DecidableEq

/-- A JS value that may sit in a message's `text`/`content` field, in the
shapes `extractText` (helpers.js lines 56-80) is written for: null or
undefined, a string, an array of fragments, or an object whose `text`
property is a string or absent. -/
inductive MsgText where
  | nullv : MsgText
  | str : List Char → MsgText
  | arr : List MsgItem → MsgText
  | obj : Option (List Char) → MsgText
deriving DecidableEq

/-- JS truthiness of such a value: null/undefined and the empty string are
falsy; arrays and objects are always truthy. -/
def truthyMsgText : MsgText → Bool
  | .nullv => false
  | .str s => !s.isEmpty
  | .arr _ => true
  | .obj _ => true

/-- The per-item branch of the array case of `extractText` (helpers.js lines
64-72): a string item is kept, an object item contributes its `text`
property when truthy, anything else contributes the empty string (a nested
array has no `text` property, so it also contributes nothing). -/
def itemText : MsgItem → List Char
  | .istr s => s
  | .iobj (some t) => if t.isEmpty then [] else t
  | .iobj none => []
  | .iother => []

/-- `extractText` (helpers.js lines 56-80), total over all modelled shapes:
falsy input gives the empty string, a string is returned as-is, an array is
the concatenation of its items via `itemText` and `join('')`, and an object
yields its truthy `text` property or the empty string. -/
def extractText : MsgText → List Char
  | .nullv => []
  | .str s => s
  | .arr items => (items.map itemText).flatten
  | .obj t =>
    match t with
    | some s => if s.isEmpty then [] else s
    | none => []

/-- The `'...'` suffix appended by `truncateText`. -/
def dots : List Char := [Char.ofNat 46, Char.ofNat 46, Char.ofNat 46]

/-- `truncateText` (helpers.js lines 45-49): falsy text gives the empty
string, text within the limit is unchanged, longer text is cut to
`maxLength` characters with `'...'` appended. -/
def truncateText (text : List Char) (maxLength : Nat) : List Char :=
  if text.isEmpty then []
  else if text.length ≤ maxLength then text
  else text.take maxLength ++ dots

/-- A message as consumed by `MessageCard` (Loading.jsx third document,
lines 181-201) together with the `user_id` field of the documented message
shape; every field is optional. -/
structure CardMessage where
  message_id : Option Nat
  user_name : Option String
  date : Option String
  content : Option MsgText
  text : Option MsgText
  media_type : Option String
  views : Option Nat
  forwards : Option Nat
  replies : Option Nat
  chat_id : Option Nat
  from_name : Option String
  from_id : Option String
  user_id : Option String
deriving DecidableEq

/-- A card message with every field absent. -/
def emptyCardMessage : CardMessage :=
  { message_id := none, user_name := none, date := none, content := none,
    text := none, media_type := none, views := none, forwards := none,
    replies := none, chat_id := none, from_name := none, from_id := none,
    user_id := none }

/-- JS `a || b` on an optional message-text value. -/
def jsOrText (a : Option MsgText) (b : MsgText) : MsgText :=
  match a with
  | some v => if truthyMsgText v then v else b
  | none => b

/-- JS `a || b` on an optional string (absent and empty are falsy). -/
def jsOrStr (a : Option String) (b : String) : String :=
  match a with
  | some v => if v = "" then b else v
  | none => b

/-- `const messageContent = content || text || ''` (Loading.jsx line 199). -/
def messageContent (m : CardMessage) : MsgText :=
  jsOrText m.content (jsOrText m.text (.str []))

/-- `const userName = user_name || from_name || 'Anonymous User'`
(Loading.jsx line 200). -/
def userName (m : CardMessage) : String :=
  jsOrStr m.user_name (jsOrStr m.from_name "Anonymous User")

/-- `const userId = from_id || ''` (Loading.jsx line 201): only `from_id` is
read; the `user_id` naming variant is not destructured anywhere in
`MessageCard`. -/
def userId (m : CardMessage) : String :=
  jsOrStr m.from_id ""

/-- The message body rendered by `MessageCard`:
`truncateText(extractText(messageContent), 500)` (Loading.jsx line 255). -/
def renderedBodyCard (m : CardMessage) : List Char :=
  truncateText (extractText (messageContent m)) 500

/-- The message body rendered by a Search-page result row:
`truncateText(extractText(message.text), 300)` (Search.jsx line 218). -/
def renderedBodySearch (t : MsgText) : List Char :=
  truncateText (extractText t) 300

/-- Lower-case a character list (JS case-insensitive matching). -/
def lowerStr (s : List Char) : List Char := s.map Char.toLower

/-- Does `tm` occur at the head of `l`? -/
def matchesHead (tm l : List Char) : Bool := l.take tm.length == tm

/-- Modelled from the spec: the highlight-span computation of the
ResultPresenter (spec §4.4).  The repository passes a `highlightText` prop to
the result list (UserDetail.jsx line 681) but no component under `src/`
implements the span computation, so it is modelled from the spec's words: a
left-to-right scan over the lower-cased text that records every
non-overlapping occurrence of the lower-cased term and resumes after it.
`fuel` bounds the recursion; `i` is the current position. -/
def scanSpans (lt tm : List Char) : Nat → Nat → List (Nat × Nat)
  | 0, _ => []
  | fuel + 1, i =>
    if i < lt.length then
      if matchesHead tm (lt.drop i) then
        (i, tm.length) :: scanSpans lt tm fuel (i + tm.length)
      else
        scanSpans lt tm fuel (i + 1)
    else []

/-- Modelled from the spec: highlight spans of the query's free-text term in
a message's text (spec §4.4, §8.7) — missing from `src/`, see `scanSpans`.
An empty term yields no spans; otherwise the case-insensitive,
non-overlapping occurrences are returned as `(start, length)` pairs. -/
def highlightSpans (term text : List Char) : List (Nat × Nat) :=
  if term.isEmpty then []
  else scanSpans (lowerStr text) (lowerStr term) (text.length + 1) 0

/-! Concrete fixtures used by the closed theorems below.  The three message
timestamps are those of testable property 5 of the spec. -/

/-- Message with timestamp `2023-06-01T10:00Z`. -/
def msgA : Message := { id := 1, date := "2023-06-01T10:00Z", text := "alpha" }

/-- Message with timestamp `2023-06-02T09:00Z`. -/
def msgB : Message := { id := 2, date := "2023-06-02T09:00Z", text := "beta" }

/-- Message with timestamp `2023-06-01T08:00Z`. -/
def msgC : Message := { id := 3, date := "2023-06-01T08:00Z", text := "gamma" }

/-- Query Q1 of the race scenario: free text `foo`. -/
def queryFoo : MsgQuery := { defaultMsgQuery with searchQuery := "foo" }

/-- Query Q2 of the race scenario: free text `bar`. -/
def queryBar : MsgQuery := { defaultMsgQuery with searchQuery := "bar" }

/-- A deterministic remote server for the race scenario: the query `foo`
matches `msgA` and every other query matches `msgB`. -/
def demoServer (p : FetchParams) : RawResult :=
  if p.search_text = some "foo" then { messages := some [msgA], total := some 1 }
  else { messages := some [msgB], total := some 1 }

/-- The race trace of testable property 4: fetch A is issued for `queryFoo`,
the query changes to `queryBar` (issuing fetch B) before A resolves, B
resolves first, then A resolves last. -/
def raceTraceFinal : MsgsFetchState :=
  resolveEv demoServer
    (resolveEv demoServer
      (changeQueryEv (changeQueryEv initialMsgsFetchState queryFoo) queryBar) 1) 0

/-- A query state sitting on page 5. -/
def pageFiveQuery : MsgQuery := { defaultMsgQuery with page := 5 }

/-- A query state sitting on page 2. -/
def pageTwoQuery : MsgQuery := { defaultMsgQuery with page := 2 }

/-- A successful one-row result page. -/
def rawOne : RawResult := { messages := some [msgA], total := some 1 }

/-- A card message that carries only the `user_id` naming variant of the
author identifier. -/
def userIdOnlyMessage : CardMessage := { emptyCardMessage with user_id := some "user9" }

/-- A card message with a named author (legacy `user_name` variant) and a
plain string content. -/
def namedCardMessage : CardMessage :=
  { emptyCardMessage with
    user_name := some "Al"
    content := some (.str [Char.ofNat 104, Char.ofNat 105]) }

/-! Helper lemmas (shared; none of them is a claim's theorem). -/

theorem truncateText_of_le {t : List Char} {n : Nat} (h : t.length ≤ n) :
    truncateText t n = t := by
  unfold truncateText
  split_ifs with h1
  · simp_all
  · rfl

theorem truncateText_of_lt {t : List Char} {n : Nat} (h : n < t.length) :
    truncateText t n = t.take n ++ dots := by
  unfold truncateText
  split_ifs with h1 h2
  · simp_all
  · exact absurd h2 (by omega)
  · rfl

theorem truncateText_length_le (t : List Char) (n : Nat) :
    (truncateText t n).length ≤ n + 3 := by
  by_cases h : t.length ≤ n
  · rw [truncateText_of_le h]; omega
  · rw [truncateText_of_lt (by omega)]
    simp [dots, List.length_take]

/-! Claim theorems. -/

/-- Claim C7: with pageSize 20, `totalPages` is the ceiling of
`total / 20` (characterised as the least `m` with `total ≤ 20 * m`),
`startResult` is `(page - 1) * 20 + 1`, `endResult` is
`min (page * 20) total`; in particular `total = 45`, `page = 3` give
`totalPages = 3`, `windowStart = 41`, `windowEnd = 45`. -/
theorem pagination_metadata (total page : Nat) (_hp : 1 ≤ page) :
    total ≤ PAGE_SIZE * totalPages total ∧
    (∀ m : Nat, total ≤ PAGE_SIZE * m → totalPages total ≤ m) ∧
    startResult page = (page - 1) * 20 + 1 ∧
    endResult page total = min (page * 20) total ∧
    (totalPages 45 = 3 ∧ startResult 3 = 41 ∧ endResult 3 45 = 45) := by
  refine ⟨?_, ?_, rfl, rfl, by decide⟩
  · unfold totalPages PAGE_SIZE
    omega
  · intro m hm
    unfold totalPages PAGE_SIZE
    unfold PAGE_SIZE at hm
    omega

/-- Witness for C7 at `total = 45`, `page = 3`. -/
theorem pagination_metadata_witness :
    totalPages 45 = 3 ∧ startResult 3 = 41 ∧ endResult 3 45 = 45 :=
  (pagination_metadata 45 3 (by decide)).2.2.2.2

/-- Claim C10: the rendered message body is
`truncateText(extractText(body), N)` with `N = 500` in `MessageCard` and
`N = 300` on the Search page; it equals the extracted text when that text
has length at most `N`, otherwise it is exactly the first `N` characters
followed by `'...'`, and its length never exceeds `N + 3`. -/
theorem truncation_bounds (m : CardMessage) (t : MsgText) :
    ((extractText (messageContent m)).length ≤ 500 →
      renderedBodyCard m = extractText (messageContent m)) ∧
    (500 < (extractText (messageContent m)).length →
      renderedBodyCard m = (extractText (messageContent m)).take 500 ++ dots) ∧
    (renderedBodyCard m).length ≤ 500 + 3 ∧
    ((extractText t).length ≤ 300 → renderedBodySearch t = extractText t) ∧
    (300 < (extractText t).length →
      renderedBodySearch t = (extractText t).take 300 ++ dots) ∧
    (renderedBodySearch t).length ≤ 300 + 3 := by
  refine ⟨fun h => truncateText_of_le h, fun h => truncateText_of_lt h,
    truncateText_length_le _ _, fun h => truncateText_of_le h,
    fun h => truncateText_of_lt h, truncateText_length_le _ _⟩

/-- Witness for C10: a card message whose extracted text is short is
rendered unchanged, and so is a short Search-page body. -/
theorem truncation_bounds_witness :
    renderedBodyCard namedCardMessage = extractText (messageContent namedCardMessage) ∧
    renderedBodySearch (.str []) = extractText (.str []) := by
  have h := truncation_bounds namedCardMessage (.str [])
  exact ⟨h.1 (by decide), h.2.2.2.1 (by decide)⟩

/-- Claim C1 fails on the code: in the race trace of testable property 4
(fetch A issued for `queryFoo`, query changed to `queryBar` and fetch B
issued before A resolves, B resolving first, A resolving last), the final
state is not loading, carries no error, and renders A's stale result
`[msgA]` even though the current query is `queryBar`, whose result is
`[msgB]`.  The resolution handler (UserDetail.jsx lines 392-395) applies
every completed fetch unconditionally; no originating-query comparison
exists. -/
theorem fetch_race_stale_overwrite :
    raceTraceFinal.query = queryBar ∧
    rawMessages (demoServer (fetchParamsOf queryBar)) = [msgB] ∧
    renderMsgs raceTraceFinal = .listView [msgA] ∧
    msgA ≠ msgB := by decide

/-- Claim C2 fails on the code: with the Messages page on page 5, toggling
the `hasMedia` flag (a field change other than `page`) or editing the free
text leaves `page` at 5, and the fetch the effect then issues carries
`page = 5`, not 1.  Only `handleSearch`, `toggleSort` and `clearFilters`
reset the page; the direct `onChange` paths do not. -/
theorem filter_change_keeps_page :
    (setHasMediaEv pageFiveQuery true).hasMedia ≠ pageFiveQuery.hasMedia ∧
    (setHasMediaEv pageFiveQuery true).page = 5 ∧
    (fetchParamsOf (setHasMediaEv pageFiveQuery true)).page = 5 ∧
    (setSearchQueryEv pageFiveQuery "foo").searchQuery ≠ pageFiveQuery.searchQuery ∧
    (fetchParamsOf (setSearchQueryEv pageFiveQuery "foo")).page = 5 ∧
    (handleSearchEv pageFiveQuery).page = 1 ∧
    (toggleSortEv pageFiveQuery "user").page = 1 := by decide

/-- Claim C3 fails on the code: for the well-formed query state
`pageTwoQuery` (all defaults except `page = 2`) the encoder writes
`page = "2"` into the shareable representation, but the decoder
(UserDetail.jsx line 355) initialises `page` to the constant 1 and never
reads the `page` key, so `decode(encode(q))` differs from `q`. -/
theorem codec_roundtrip_drops_page :
    getParam (encodeParams pageTwoQuery) "page" = some "2" ∧
    roundTrip pageTwoQuery = { pageTwoQuery with page := 1 } ∧
    roundTrip pageTwoQuery ≠ pageTwoQuery := by decide

/-- Claim C5 fails on the code: on the Search page, after a successful
fetch showing `[msgA]`, a failing fetch leaves the page rendering the stale
results — the `catch` block (Search.jsx lines 63-64) only logs, no error
state exists on this page, and the previous `results` are kept. -/
theorem search_failure_shows_stale_results :
    (searchFailureEv (searchSuccessEv initialSearchPageState rawOne)).results
      = [msgA] ∧
    renderSearch (searchFailureEv (searchSuccessEv initialSearchPageState rawOne))
      = .resultsView [msgA] := by decide

/-- Claim C6: a result page whose `messages` field is empty or absent and
whose `total` is 0 or absent normalises to no rows and total 0, presents
as the empty grouped view with `totalPages = 0`, and renders the empty
state, never the error view. -/
theorem empty_result_presents_empty_view (r : RawResult)
    (hm : r.messages = none ∨ r.messages = some [])
    (ht : r.total = none ∨ r.total = some 0) :
    rawMessages r = [] ∧
    rawTotal r = 0 ∧
    totalPages (rawTotal r) = 0 ∧
    groupMessages (rawMessages r) = [] ∧
    renderMessageList false none (rawMessages r) = .emptyView ∧
    (∀ e : String, renderMessageList false none (rawMessages r) ≠ .errorView e) := by
  have hm' : rawMessages r = [] := by
    rcases hm with h | h <;> simp [rawMessages, h]
  have ht' : rawTotal r = 0 := by
    rcases ht with h | h <;> simp [rawTotal, h]
  refine ⟨hm', ht', ?_, ?_, ?_, ?_⟩
  · rw [ht']; decide
  · rw [hm']; decide
  · rw [hm']; decide
  · intro e
    rw [hm']
    simp [renderMessageList]

/-- Witness for C6 at the fully absent result page. -/
theorem empty_result_presents_empty_view_witness :
    rawMessages { messages := none, total := none } = [] ∧
    rawTotal { messages := none, total := none } = 0 ∧
    totalPages (rawTotal { messages := none, total := none }) = 0 ∧
    groupMessages (rawMessages { messages := none, total := none }) = [] ∧
    renderMessageList false none (rawMessages { messages := none, total := none })
      = .emptyView ∧
    (∀ e : String,
      renderMessageList false none (rawMessages { messages := none, total := none })
        ≠ .errorView e) :=
  empty_result_presents_empty_view { messages := none, total := none }
    (Or.inl rfl) (Or.inl rfl)

theorem bucketOf_addMsg (gs : List (String × List Message)) (m : Message) (d : String) :
    bucketOf (addMsg gs m) d =
      if dateKey m = d then bucketOf gs d ++ [m] else bucketOf gs d := by
  induction gs with
  | nil =>
    by_cases h : dateKey m = d <;> simp [addMsg, bucketOf, h]
  | cons hd tl ih =>
    obtain ⟨k, ms⟩ := hd
    by_cases h1 : k = dateKey m
    · by_cases h2 : k = d
      · have hd2 : dateKey m = d := h1.symm.trans h2
        simp [addMsg, bucketOf, h1, h2, hd2]
      · have hd2 : ¬ dateKey m = d := fun h => h2 (h1.trans h)
        simp [addMsg, bucketOf, h1, h2, hd2]
    · by_cases h2 : k = d
      · have h1' : ¬ d = dateKey m := fun h => h1 (h2.trans h)
        have hd2 : ¬ dateKey m = d := fun h => h1' h.symm
        simp [addMsg, bucketOf, h2, h1', hd2]
      · simp [addMsg, bucketOf, h1, h2, ih]

theorem bucketOf_foldl_addMsg (msgs : List Message) :
    ∀ (gs : List (String × List Message)) (d : String),
      bucketOf (msgs.foldl addMsg gs) d =
        bucketOf gs d ++ msgs.filter (fun m => dateKey m == d) := by
  induction msgs with
  | nil => intro gs d; simp
  | cons m ms ih =>
    intro gs d
    simp only [List.foldl_cons, ih, bucketOf_addMsg, List.filter_cons]
    by_cases h : dateKey m = d <;> simp [h, List.append_assoc]

theorem insertDateDesc_perm (d : String) (l : List String) :
    (insertDateDesc d l).Perm (d :: l) := by
  induction l with
  | nil => simp [insertDateDesc]
  | cons x xs ih =>
    unfold insertDateDesc
    split_ifs
    · exact List.Perm.refl _
    · exact (ih.cons x).trans (List.Perm.swap d x xs)

theorem insertDateDesc_pairwise (d : String) (l : List String)
    (h : l.Pairwise (fun a b => dateVal b ≤ dateVal a)) :
    (insertDateDesc d l).Pairwise (fun a b => dateVal b ≤ dateVal a) := by
  induction l with
  | nil => simp [insertDateDesc]
  | cons x xs ih =>
    unfold insertDateDesc
    rw [List.pairwise_cons] at h
    obtain ⟨hx, hxs⟩ := h
    split_ifs with hcmp
    · refine List.Pairwise.cons ?_ (List.Pairwise.cons hx hxs)
      intro y hy
      rcases List.mem_cons.mp hy with rfl | hy2
      · exact hcmp
      · exact le_trans (hx y hy2) hcmp
    · refine List.Pairwise.cons ?_ (ih hxs)
      intro y hy
      have hy' : y ∈ d :: xs := (insertDateDesc_perm d xs).mem_iff.mp hy
      rcases List.mem_cons.mp hy' with rfl | hy2
      · exact le_of_not_le hcmp
      · exact hx y hy2

theorem sortDatesDesc_perm (l : List String) : (sortDatesDesc l).Perm l := by
  induction l with
  | nil => simp [sortDatesDesc]
  | cons x xs ih =>
    exact (insertDateDesc_perm x (sortDatesDesc xs)).trans (ih.cons x)

theorem sortDatesDesc_pairwise (l : List String) :
    (sortDatesDesc l).Pairwise (fun a b => dateVal b ≤ dateVal a) := by
  induction l with
  | nil => simp [sortDatesDesc]
  | cons x xs ih => exact insertDateDesc_pairwise x (sortDatesDesc xs) ih

/-- Claim C4: the presenter buckets messages by the date portion of each
ISO timestamp only — the bucket of a date key is exactly the subsequence
of messages whose timestamp has that date portion, in original server
order — and the presented bucket keys are the grouped keys sorted
descending by calendar-date value; on the spec's example page (timestamps
`2023-06-01T10:00Z`, `2023-06-02T09:00Z`, `2023-06-01T08:00Z`) this gives
the bucket order `2023-06-02`, `2023-06-01` with `2023-06-01` holding the
10:00 message before the 08:00 one. -/
theorem grouping_by_day (msgs : List Message) (d : String) :
    bucketOf (groupMessages msgs) d = msgs.filter (fun m => dateKey m == d) ∧
    (sortedDates msgs).Pairwise (fun a b => dateVal b ≤ dateVal a) ∧
    (sortedDates msgs).Perm (keysOf (groupMessages msgs)) ∧
    sortedDates [msgA, msgB, msgC] = ["2023-06-02", "2023-06-01"] ∧
    bucketOf (groupMessages [msgA, msgB, msgC]) "2023-06-01" = [msgA, msgC] ∧
    bucketOf (groupMessages [msgA, msgB, msgC]) "2023-06-02" = [msgB] := by
  refine ⟨?_, sortDatesDesc_pairwise _, sortDatesDesc_perm _, by decide, by decide, by decide⟩
  have h := bucketOf_foldl_addMsg msgs [] d
  simpa [groupMessages, bucketOf] using h

/-- Counterexample to claim C9 as stated: a message carrying the author id
only under the `user_id` naming variant is not accepted — `MessageCard`
reads `from_id` alone (Loading.jsx line 201), so the rendered author id is
the empty string, not `user9`; and with both name variants missing the
rendered author name is the `Anonymous User` placeholder, not an empty
value. -/
theorem card_user_id_not_aliased :
    userIdOnlyMessage.user_id = some "user9" ∧
    userIdOnlyMessage.from_id = none ∧
    userId userIdOnlyMessage = "" ∧
    userId userIdOnlyMessage ≠ "user9" ∧
    userName userIdOnlyMessage = "Anonymous User" := by decide

/-- Claim C9 as amended: presentation accepts the `text|content` and
`from_name|user_name` aliasing; the author id is read from `from_id` only
(a missing or empty `from_id` fails closed to the empty string, whatever
`user_id` holds); a missing author name renders the `Anonymous User`
placeholder; missing text fields render the empty string; and text
extraction (`extractText`) is a total function over the null, string,
array and object payload shapes. -/
theorem card_field_tolerance (m : CardMessage) :
    (∀ n, m.user_name = some n → n ≠ "" → userName m = n) ∧
    (∀ n, (m.user_name = none ∨ m.user_name = some "") → m.from_name = some n →
      n ≠ "" → userName m = n) ∧
    ((m.user_name = none ∨ m.user_name = some "") →
      (m.from_name = none ∨ m.from_name = some "") →
      userName m = "Anonymous User") ∧
    (m.from_id = none → userId m = "") ∧
    (m.from_id = some "" → userId m = "") ∧
    (∀ v, m.content = some v → truthyMsgText v = true → messageContent m = v) ∧
    (∀ w, (m.content = none ∨ ∃ v, m.content = some v ∧ truthyMsgText v = false) →
      m.text = some w → truthyMsgText w = true → messageContent m = w) ∧
    (m.content = none → m.text = none → renderedBodyCard m = []) := by
  refine ⟨?_, ?_, ?_, ?_, ?_, ?_, ?_, ?_⟩
  · intro n hn hne
    simp [userName, jsOrStr, hn, hne]
  · intro n hun hfn hne
    rcases hun with h | h <;> simp [userName, jsOrStr, h, hfn, hne]
  · intro hun hfn
    rcases hun with h | h <;> rcases hfn with h2 | h2 <;>
      simp [userName, jsOrStr, h, h2]
  · intro h
    simp [userId, jsOrStr, h]
  · intro h
    simp [userId, jsOrStr, h]
  · intro v hv htr
    simp [messageContent, jsOrText, hv, htr]
  · intro w hc ht htr
    rcases hc with h | ⟨v, hv, hvf⟩
    · simp [messageContent, jsOrText, h, ht, htr]
    · simp [messageContent, jsOrText, hv, hvf, ht, htr]
  · intro hc ht
    simp [renderedBodyCard, messageContent, jsOrText, hc, ht, extractText, truncateText]

/-- Witness for the amended C9 on a concrete message: the legacy
`user_name` variant is rendered, the absent `from_id` fails closed, and the
truthy string content is selected. -/
theorem card_field_tolerance_witness :
    userName namedCardMessage = "Al" ∧
    userId namedCardMessage = "" ∧
    messageContent namedCardMessage = .str [Char.ofNat 104, Char.ofNat 105] := by
  have h := card_field_tolerance namedCardMessage
  exact ⟨h.1 "Al" rfl (by decide), h.2.2.2.1 rfl, h.2.2.2.2.2.1 _ rfl (by decide)⟩

theorem scanSpans_sound (lt tm : List Char) (fuel : Nat) :
    ∀ i : Nat,
      (∀ pn ∈ scanSpans lt tm fuel i,
        pn.2 = tm.length ∧ i ≤ pn.1 ∧ (lt.drop pn.1).take tm.length = tm) ∧
      (scanSpans lt tm fuel i).Pairwise (fun a b => a.1 + a.2 ≤ b.1) := by
  induction fuel with
  | zero => intro i; simp [scanSpans]
  | succ f ih =>
    intro i
    simp only [scanSpans]
    split_ifs with hlen hmatch
    · have htake : (lt.drop i).take tm.length = tm := by
        simpa [matchesHead] using hmatch
      constructor
      · intro pn hpn
        rcases List.mem_cons.mp hpn with rfl | hpn2
        · exact ⟨rfl, le_refl _, htake⟩
        · obtain ⟨h1, h2, h3⟩ := (ih (i + tm.length)).1 pn hpn2
          exact ⟨h1, by omega, h3⟩
      · refine List.Pairwise.cons ?_ (ih (i + tm.length)).2
        intro b hb
        have hb1 := ((ih (i + tm.length)).1 b hb).2.1
        simpa using hb1
    · constructor
      · intro pn hpn
        obtain ⟨h1, h2, h3⟩ := (ih (i + 1)).1 pn hpn
        exact ⟨h1, by omega, h3⟩
      · exact (ih (i + 1)).2
    · simp

theorem scanSpans_complete (lt tm : List Char) (htm : tm ≠ []) :
    ∀ (fuel i : Nat), lt.length + 1 ≤ fuel + i →
      ∀ j, i ≤ j → j + tm.length ≤ lt.length →
        (lt.drop j).take tm.length = tm →
        ∃ pn ∈ scanSpans lt tm fuel i, pn.1 ≤ j ∧ j < pn.1 + pn.2 := by
  have hpos : 0 < tm.length := List.length_pos.mpr htm
  intro fuel
  induction fuel with
  | zero =>
    intro i hfi j hij hjlen _
    omega
  | succ f ih =>
    intro i hfi j hij hjlen hocc
    have hilt : i < lt.length := by omega
    simp only [scanSpans]
    rw [if_pos hilt]
    by_cases hmatch : matchesHead tm (lt.drop i) = true
    · rw [if_pos hmatch]
      by_cases hj : j < i + tm.length
      · exact ⟨(i, tm.length), List.mem_cons_self _ _, hij, hj⟩
      · obtain ⟨pn, hmem, h1, h2⟩ := ih (i + tm.length) (by omega) j (by omega) hjlen hocc
        exact ⟨pn, List.mem_cons_of_mem _ hmem, h1, h2⟩
    · rw [if_neg hmatch]
      have hji : i ≠ j := by
        intro h
        subst h
        apply hmatch
        simp [matchesHead, hocc]
      obtain ⟨pn, hmem, h1, h2⟩ := ih (i + 1) (by omega) j (by omega) hjlen hocc
      exact ⟨pn, hmem, h1, h2⟩

/-- Claim C8 (highlighting modelled from the spec, see `highlightSpans`):
exactly the case-insensitive, non-overlapping occurrences of the term are
tagged.  An empty or absent free-text term yields zero spans for every
message — never a whole-text match.  Soundness: every produced span is a
genuine case-insensitive occurrence of the term (its length is the term's
length, it lies inside the text, and the lower-cased text it covers equals
the lower-cased term), and the spans are pairwise non-overlapping in
left-to-right order.  Completeness: no occurrence is dropped — every
position where the term occurs case-insensitively starts inside one of the
tagged spans (it either is a tagged span or overlaps one, which is all a
non-overlapping tagging can do). -/
theorem highlight_spans_exact (term text : List Char) :
    highlightSpans [] text = [] ∧
    (term = [] → highlightSpans term text = []) ∧
    (∀ pn ∈ highlightSpans term text,
      pn.2 = term.length ∧ pn.1 + pn.2 ≤ text.length ∧
      lowerStr ((text.drop pn.1).take pn.2) = lowerStr term) ∧
    (highlightSpans term text).Pairwise (fun a b => a.1 + a.2 ≤ b.1) ∧
    (term ≠ [] → ∀ j, j + term.length ≤ text.length →
      lowerStr ((text.drop j).take term.length) = lowerStr term →
      ∃ pn ∈ highlightSpans term text, pn.1 ≤ j ∧ j < pn.1 + pn.2) := by
  refine ⟨by simp [highlightSpans], fun h => by simp [highlightSpans, h], ?_, ?_, ?_⟩
  · intro pn hpn
    by_cases hterm : term.isEmpty
    · simp [highlightSpans, hterm] at hpn
    · have htermne : term ≠ [] := by
        rcases term with _ | ⟨c, cs⟩ <;> simp_all
      simp only [highlightSpans, hterm, Bool.false_eq_true, if_false] at hpn
      obtain ⟨h1, _, h3⟩ :=
        (scanSpans_sound (lowerStr text) (lowerStr term) (text.length + 1) 0).1 pn hpn
      have hlterm : (lowerStr term).length = term.length := by simp [lowerStr]
      have h2 : pn.2 = term.length := by rw [h1, hlterm]
      refine ⟨h2, ?_, ?_⟩
      · have hlen := congrArg List.length h3
        simp only [List.length_take, List.length_drop, hlterm] at hlen
        have hltext : (lowerStr text).length = text.length := by simp [lowerStr]
        rw [hltext] at hlen
        have hpos : 0 < term.length := List.length_pos.mpr htermne
        omega
      · rw [h2]
        have hcomm : lowerStr ((text.drop pn.1).take term.length)
            = ((lowerStr text).drop pn.1).take term.length := by
          simp [lowerStr, List.map_take, List.map_drop]
        rw [hcomm, ← hlterm, h3]
  · by_cases hterm : term.isEmpty
    · simp [highlightSpans, hterm]
    · simp only [highlightSpans, hterm, Bool.false_eq_true, if_false]
      exact (scanSpans_sound (lowerStr text) (lowerStr term) (text.length + 1) 0).2
  · intro htermne j hjle hocc
    have hie : term.isEmpty = false := by
      rcases term with _ | ⟨c, cs⟩
      · exact absurd rfl htermne
      · rfl
    have htmne : lowerStr term ≠ [] := by
      rcases term with _ | ⟨c, cs⟩
      · exact absurd rfl htermne
      · simp [lowerStr]
    have hlterm : (lowerStr term).length = term.length := by simp [lowerStr]
    have hocc2 : ((lowerStr text).drop j).take (lowerStr term).length = lowerStr term := by
      rw [hlterm]
      have hcomm : lowerStr ((text.drop j).take term.length)
          = ((lowerStr text).drop j).take term.length := by
        simp [lowerStr, List.map_take, List.map_drop]
      rw [← hcomm, hocc]
    have hcov := scanSpans_complete (lowerStr text) (lowerStr term) htmne
      (text.length + 1) 0 (by simp [lowerStr]) j (by omega)
      (by simpa [lowerStr] using hjle) hocc2
    simp only [highlightSpans, hie, Bool.false_eq_true, if_false]
    exact hcov

/-- Witness for C8 on concrete data: the empty term yields no spans over
`"b"`; over the text `"bA"` the term `"a"` produces the span `(1, 1)`,
which is a genuine case-insensitive occurrence inside the text; and the
occurrence at position 1 is covered by a tagged span. -/
theorem highlight_spans_exact_witness :
    highlightSpans [] [Char.ofNat 98] = [] ∧
    ((1, 1).2 = [Char.ofNat 97].length ∧
      (1, 1).1 + (1, 1).2 ≤ [Char.ofNat 98, Char.ofNat 65].length ∧
      lowerStr (([Char.ofNat 98, Char.ofNat 65].drop (1, 1).1).take (1, 1).2)
        = lowerStr [Char.ofNat 97]) ∧
    (∃ pn ∈ highlightSpans [Char.ofNat 97] [Char.ofNat 98, Char.ofNat 65],
      pn.1 ≤ 1 ∧ 1 < pn.1 + pn.2) := by
  have h := highlight_spans_exact [Char.ofNat 97] [Char.ofNat 98, Char.ofNat 65]
  exact ⟨(highlight_spans_exact [Char.ofNat 97] [Char.ofNat 98]).1,
    h.2.2.1 (1, 1) (by decide),
    h.2.2.2.2 (by decide) 1 (by decide) (by decide)⟩

end TGCA
